import Mathlib

/-
Verification of the analysis-orchestration core of the
public-opinion-parallel-universe repository: a shallow embedding of the
pure fragments of src/tasks/orchestrator.py, src/tasks/analysis.py,
src/tasks/blackboard.py, src/tasks/agents_phased.py and
src/tasks/report.py, with theorems about them.

Python strings are modelled as lists of characters (`Str`), Python dicts
of payloads as association lists, Redis-backed effects as explicit
environment records, and exceptions as `Except`.
-/

namespace PPU

/-- Str models a Python (unicode) string: a list of characters, so that
`len` is `List.length`. -/
abbrev Str := List Char

/-- Python `str.strip()`: remove leading and trailing whitespace. -/
def strStrip (s : Str) : Str :=
  ((s.dropWhile Char.isWhitespace).reverse.dropWhile Char.isWhitespace).reverse

/-- Python `str.lower()` (character-wise). -/
def strLower (s : Str) : Str := s.map Char.toLower

/-- Python `s.split(':', 1)[1]` for a string that contains a colon:
everything after the first colon. -/
def afterFirstColon (s : Str) : Str := (s.dropWhile (fun c => c != ':')).drop 1

/-- Python `needle in hay` (substring containment). -/
def strContainsSub (hay needle : Str) : Bool :=
  hay.tails.any (fun t => needle.isPrefixOf t)

-- ==================== orchestrator.py: _parse_llm_response ====================

def decisionKey : Str := "DECISION:".toList
def guidanceKey : Str := "GUIDANCE:".toList
def approveStr : Str := "approve".toList
def reviseStr : Str := "revise".toList
def supplementStr : Str := "supplement".toList

/-- The decision-value mapping of `_parse_llm_response`
(orchestrator.py lines 393-399): strip, lower, then substring checks for
"revise" before "supplement", default "approve". -/
def mapDecisionValue (v : Str) : Str :=
  let decision_text := strLower (strStrip v)
  if strContainsSub decision_text reviseStr then reviseStr
  else if strContainsSub decision_text supplementStr then supplementStr
  else approveStr

/-- One iteration of the line loop of `_parse_llm_response`
(orchestrator.py lines 389-402). -/
def parseLine (acc : Str × Str) (rawLine : Str) : Str × Str :=
  let line := strStrip rawLine
  if decisionKey.isPrefixOf line then
    (mapDecisionValue (afterFirstColon line), acc.2)
  else if guidanceKey.isPrefixOf line then
    (acc.1, strStrip (afterFirstColon line))
  else acc

/-- `_parse_llm_response` (orchestrator.py lines 375-404): split the
stripped reply on newlines and fold the line loop over the default
`('approve', '')`. -/
def parse_llm_response (content : Str) : Str × Str :=
  ((strStrip content).splitOn '\n').foldl parseLine (approveStr, [])

/-- Spec-side view: the raw value of a line recognized as a DECISION line
(the key is matched exactly, in upper case, after stripping). -/
def decisionLineValue (rawLine : Str) : Option Str :=
  let line := strStrip rawLine
  if decisionKey.isPrefixOf line then some (afterFirstColon line) else none

/-- Spec-side view: the raw value of a line recognized as a GUIDANCE line
(a DECISION-prefixed line is never a GUIDANCE line, mirroring the elif). -/
def guidanceLineValue (rawLine : Str) : Option Str :=
  let line := strStrip rawLine
  if decisionKey.isPrefixOf line then none
  else if guidanceKey.isPrefixOf line then some (afterFirstColon line) else none

theorem parseLine_fst_of_not_decision (acc : Str × Str) (l : Str)
    (h : decisionLineValue l = none) : (parseLine acc l).1 = acc.1 := by
  unfold decisionLineValue at h
  unfold parseLine
  by_cases hp : decisionKey.isPrefixOf (strStrip l)
  · simp [hp] at h
  · simp only [hp, Bool.false_eq_true, if_false]
    by_cases hg : guidanceKey.isPrefixOf (strStrip l) <;> simp [hg]

theorem parseLine_of_decision (acc : Str × Str) (l v : Str)
    (h : decisionLineValue l = some v) :
    parseLine acc l = (mapDecisionValue v, acc.2) := by
  unfold decisionLineValue at h
  unfold parseLine
  by_cases hp : decisionKey.isPrefixOf (strStrip l)
  · simp only [hp, if_true] at h ⊢
    simp at h
    rw [h]
  · simp [hp] at h

theorem getLast?_cons_of_ne_nil {α : Type} (a : α) {l : List α} (h : l ≠ []) :
    (a :: l).getLast? = l.getLast? := by
  cases l with
  | nil => exact absurd rfl h
  | cons b t => simp [List.getLast?_cons_cons]

/-- The decision component of the fold is determined by the last
DECISION-recognized line. -/
theorem foldl_parseLine_fst (ls : List Str) (acc : Str × Str) :
    (ls.foldl parseLine acc).1 =
      (match (ls.filterMap decisionLineValue).getLast? with
       | none => acc.1
       | some v => mapDecisionValue v) := by
  induction ls generalizing acc with
  | nil => rfl
  | cons l ls ih =>
    cases h : decisionLineValue l with
    | none =>
      simp only [List.foldl_cons, List.filterMap_cons, h]
      rw [ih, parseLine_fst_of_not_decision acc l h]
    | some v =>
      simp only [List.foldl_cons, List.filterMap_cons, h]
      rw [ih]
      cases hrest : ls.filterMap decisionLineValue with
      | nil =>
        simp only [hrest, List.getLast?_nil, List.getLast?_singleton]
        rw [parseLine_of_decision acc l v h]
      | cons w t =>
        rw [getLast?_cons_of_ne_nil v (by simp [hrest])]
        cases hl : (w :: t).getLast? with
        | none => simp at hl
        | some u => rfl

theorem parseLine_snd_of_not_guidance (acc : Str × Str) (l : Str)
    (h : guidanceLineValue l = none) : (parseLine acc l).2 = acc.2 := by
  unfold guidanceLineValue at h
  unfold parseLine
  by_cases hp : decisionKey.isPrefixOf (strStrip l)
  · simp [hp]
  · simp only [hp, Bool.false_eq_true, if_false] at h ⊢
    by_cases hg : guidanceKey.isPrefixOf (strStrip l)
    · simp [hg] at h
    · simp [hg]

theorem parseLine_of_guidance (acc : Str × Str) (l v : Str)
    (h : guidanceLineValue l = some v) :
    parseLine acc l = (acc.1, strStrip v) := by
  unfold guidanceLineValue at h
  unfold parseLine
  by_cases hp : decisionKey.isPrefixOf (strStrip l)
  · simp [hp] at h
  · simp only [hp, Bool.false_eq_true, if_false] at h ⊢
    by_cases hg : guidanceKey.isPrefixOf (strStrip l)
    · simp only [hg, if_true] at h ⊢
      simp at h
      rw [h]
    · simp [hg] at h

/-- The guidance component of the fold is determined by the last
GUIDANCE-recognized line. -/
theorem foldl_parseLine_snd (ls : List Str) (acc : Str × Str) :
    (ls.foldl parseLine acc).2 =
      (match (ls.filterMap guidanceLineValue).getLast? with
       | none => acc.2
       | some v => strStrip v) := by
  induction ls generalizing acc with
  | nil => rfl
  | cons l ls ih =>
    cases h : guidanceLineValue l with
    | none =>
      simp only [List.foldl_cons, List.filterMap_cons, h]
      rw [ih, parseLine_snd_of_not_guidance acc l h]
    | some v =>
      simp only [List.foldl_cons, List.filterMap_cons, h]
      rw [ih]
      cases hrest : ls.filterMap guidanceLineValue with
      | nil =>
        simp only [hrest, List.getLast?_nil, List.getLast?_singleton]
        rw [parseLine_of_guidance acc l v h]
      | cons w t =>
        rw [getLast?_cons_of_ne_nil v (by simp [hrest])]
        cases hl : (w :: t).getLast? with
        | none => simp at hl
        | some u => rfl

/-- C8 (amended): the line-oriented parse recognizes the `DECISION:` and
`GUIDANCE:` keys case-sensitively (exact upper-case match after per-line
whitespace stripping); the decision is determined by the last recognized
DECISION line, whose value is matched case-insensitively — a value
mentioning revise maps to `revise`, else one mentioning supplement maps to
`supplement`, anything else to `approve`; guidance is the stripped value of
the last recognized GUIDANCE line; and a reply with no recognizable
DECISION line yields `approve` — never `revise` or `supplement`. -/
theorem C8_parse_llm_reply (content : Str) :
    (parse_llm_response content).1 =
      (match (((strStrip content).splitOn '\n').filterMap decisionLineValue).getLast? with
       | none => approveStr
       | some v => mapDecisionValue v)
  ∧ (parse_llm_response content).2 =
      (match (((strStrip content).splitOn '\n').filterMap guidanceLineValue).getLast? with
       | none => []
       | some v => strStrip v)
  ∧ (((strStrip content).splitOn '\n').filterMap decisionLineValue = [] →
      (parse_llm_response content).1 = approveStr) := by
  refine ⟨foldl_parseLine_fst _ _, foldl_parseLine_snd _ _, fun h => ?_⟩
  rw [parse_llm_response, foldl_parseLine_fst, h]
  rfl

/-- C8 witness: a garbled reply with no DECISION line parses to approve. -/
theorem C8_parse_llm_reply_witness :
    (parse_llm_response ("this reply is garbled".toList)).1 = approveStr :=
  (C8_parse_llm_reply ("this reply is garbled".toList)).2.2 (by decide)

/-- C8 counterexample: the DECISION key is matched case-sensitively, not
case-insensitively as the claim states — a lower-case `decision:` key is
ignored (decision stays approve) while the upper-case key is recognized. -/
theorem C8_counterexample :
    (parse_llm_response ("decision: revise".toList)).1 = approveStr
  ∧ (parse_llm_response ("DECISION: revise".toList)).1 = reviseStr := by
  constructor <;> decide

-- ==================== analysis.py: query cache ====================

/-- Rendered result documents are opaque to the cache; model them by ids. -/
abbrev Doc := Nat

/-- SIMILARITY_THRESHOLD (analysis.py line 35). -/
def SIMILARITY_THRESHOLD : ℚ := 0.80

/-- MAX_CACHE_SCAN (analysis.py line 36). -/
def MAX_CACHE_SCAN : Nat := 100

/-- The stop-word set of `_tokenize` (analysis.py line 50). -/
def stopwords : List Str :=
  ["的", "了", "在", "是", "我", "有", "和", "就", "不", "人", "都", "一",
   "一个", "上", "也", "很", "到", "说", "要", "去", "你", "会", "着",
   "没有", "看", "好", "自己", "这"].map (fun s => s.toList)

/-- The jieba word segmenter, an external capability of `_tokenize`. -/
abbrev Segmenter := Str → List Str

/-- `_tokenize` (analysis.py lines 39-54): when jieba imports, segment and
keep words longer than one character that are not stop-words, as a set;
on ImportError fall back to the set of the characters of the text. -/
def tokenize (jieba : Option Segmenter) (text : Str) : Finset Str :=
  match jieba with
  | some lcut =>
      ((lcut text).filter
        (fun w => decide (1 < w.length) && !(stopwords.contains w))).toFinset
  | none => (text.map (fun c => [c])).toFinset

/-- `_jaccard_similarity` (analysis.py lines 57-63). -/
def jaccard_similarity (set1 set2 : Finset Str) : ℚ :=
  if set1 = ∅ ∨ set2 = ∅ then 0
  else
    let intersection := (set1 ∩ set2).card
    let union := (set1 ∪ set2).card
    if 0 < union then (intersection : ℚ) / (union : ℚ) else 0

/-- The meta record written next to a cached result
(report.py lines 225-230); `result_key` is optional because
`meta.get('result_key')` may be absent. `created_at` is a timestamp. -/
structure CacheMeta where
  query : Str
  tokens : List Str
  result_key : Option Str
  created_at : Nat
deriving DecidableEq

/-- The outcome of one Redis get combined with its json.loads: the
operation raised (err), the key was missing (absent), the stored bytes
failed to decode (bad), or a value was read. -/
inductive Fetch (α : Type) where
  | err : Fetch α
  | absent : Fetch α
  | bad : Fetch α
  | ok : α → Fetch α
deriving DecidableEq

/-- The Redis state `check_query_cache` reads: the exact-hash entry for
the submitted query, the list of `cache:query:*:meta` keys (identified by
index) with `keysErr` modelling an exception from `r.keys`, the meta
record at each key, and the result stored under each result key. -/
structure CacheBackend where
  exactGet : Fetch Doc
  keysErr : Bool
  keys : List Nat
  metaGet : Nat → Fetch CacheMeta
  resGet : Str → Fetch Doc

/-- The best-candidate accumulator of the scan loop
(analysis.py lines 149-150). -/
structure ScanAcc where
  best_match : Option CacheMeta
  best_similarity : ℚ
deriving DecidableEq

/-- One iteration of the scan loop (analysis.py lines 152-165): a missing,
undecodable or erroring meta entry is skipped; a candidate replaces the
best only when its similarity is strictly greater. -/
def scanStep (query_tokens : Finset Str) (b : CacheBackend)
    (acc : ScanAcc) (k : Nat) : ScanAcc :=
  match b.metaGet k with
  | .ok meta =>
      let similarity := jaccard_similarity query_tokens meta.tokens.toFinset
      if acc.best_similarity < similarity then ⟨some meta, similarity⟩ else acc
  | _ => acc

/-- The scan over at most MAX_CACHE_SCAN meta keys (analysis.py line 152). -/
def scanMetas (query_tokens : Finset Str) (b : CacheBackend) : ScanAcc :=
  (b.keys.take MAX_CACHE_SCAN).foldl (scanStep query_tokens b) ⟨none, 0⟩

/-- Exception kinds inside the cache lookup. -/
inductive CErr where
  | io : CErr
  | json : CErr
deriving DecidableEq

/-- The body of `check_query_cache` (analysis.py lines 128-174), before the
enclosing try/except: exact-hash lookup first, then tokenize, then the
bounded similarity scan, then the threshold test and the result fetch.
An `.error` is an exception that reaches the outer handler. -/
def check_query_cache_body (jieba : Option Segmenter) (query : Str)
    (b : CacheBackend) : Except CErr (Option Doc) :=
  match b.exactGet with
  | .err => .error .io
  | .bad => .error .json
  | .ok d => .ok (some d)
  | .absent =>
    if tokenize jieba query = ∅ then .ok none
    else if b.keysErr then .error .io
    else if b.keys = [] then .ok none
    else
      match (scanMetas (tokenize jieba query) b).best_match with
      | none => .ok none
      | some best =>
        if SIMILARITY_THRESHOLD ≤ (scanMetas (tokenize jieba query) b).best_similarity then
          match best.result_key with
          | none => .ok none
          | some rk =>
            match b.resGet rk with
            | .err => .error .io
            | .bad => .error .json
            | .absent => .ok none
            | .ok d => .ok (some d)
        else .ok none

/-- `check_query_cache` (analysis.py lines 114-179): the body runs under a
try/except that turns every exception into a cache miss (None). -/
def check_query_cache (jieba : Option Segmenter) (query : Str)
    (b : CacheBackend) : Option Doc :=
  match check_query_cache_body jieba query b with
  | .ok v => v
  | .error _ => none

-- ==================== report.py: _set_query_cache and finalize ====================

/-- The backend effects `_set_query_cache` performs, each of which can
raise: connecting, writing the result entry, writing the meta entry. -/
structure SetCacheEnv where
  connOk : Bool
  setResultOk : Bool
  setMetaOk : Bool
deriving DecidableEq

/-- The body of `_set_query_cache` (report.py lines 214-234), before the
enclosing try/except. -/
def set_query_cache_body (env : SetCacheEnv) : Except CErr Unit :=
  if !env.connOk then .error .io
  else if !env.setResultOk then .error .io
  else if !env.setMetaOk then .error .io
  else .ok ()

/-- `_set_query_cache` (report.py lines 199-237): every exception of the
body is caught and logged, and the function returns normally. -/
def set_query_cache (env : SetCacheEnv) : Except CErr Unit :=
  match set_query_cache_body env with
  | .ok _ => .ok ()
  | .error _ => .ok ()

def completedStr : Str := "completed".toList

/-- The tail of `generate_report` / `generate_report_with_forum` after a
successful render (report.py lines 161-168 and 324-331): the completed
status is written, the cache write runs (its failures are swallowed by
`set_query_cache`), and the document is returned. -/
def generate_report_finalize (ir : Doc) (env : SetCacheEnv) :
    Except CErr (Str × Doc) := do
  let _ ← set_query_cache env
  .ok (completedStr, ir)

-- ==================== cache lemmas and claims ====================

theorem scanStep_bestSim_le (qT : Finset Str) (b : CacheBackend)
    (acc : ScanAcc) (k : Nat) :
    acc.best_similarity ≤ (scanStep qT b acc k).best_similarity := by
  unfold scanStep
  cases hm : b.metaGet k with
  | ok meta =>
    by_cases h : acc.best_similarity < jaccard_similarity qT meta.tokens.toFinset
    · simpa [h] using le_of_lt h
    · simp [h]
  | err => exact le_refl _
  | absent => exact le_refl _
  | bad => exact le_refl _

theorem scanFold_bestSim_le (qT : Finset Str) (b : CacheBackend)
    (ks : List Nat) (acc : ScanAcc) :
    acc.best_similarity ≤ (ks.foldl (scanStep qT b) acc).best_similarity := by
  induction ks generalizing acc with
  | nil => exact le_refl _
  | cons k ks ih => exact le_trans (scanStep_bestSim_le qT b acc k) (ih _)

theorem scanFold_bound (qT : Finset Str) (b : CacheBackend)
    (ks : List Nat) (acc : ScanAcc) :
    ∀ k ∈ ks, ∀ m, b.metaGet k = .ok m →
      jaccard_similarity qT m.tokens.toFinset ≤
        (ks.foldl (scanStep qT b) acc).best_similarity := by
  induction ks generalizing acc with
  | nil => intro k hk; exact absurd hk (List.not_mem_nil k)
  | cons k' ks ih =>
    intro k hk m hm
    rcases List.mem_cons.mp hk with h | h
    · subst h
      refine le_trans ?_ (scanFold_bestSim_le qT b ks (scanStep qT b acc k))
      unfold scanStep
      rw [hm]
      by_cases hlt : acc.best_similarity < jaccard_similarity qT m.tokens.toFinset
      · simp [hlt]
      · simpa [hlt] using le_of_not_lt hlt
    · exact ih (scanStep qT b acc k') k h m hm

theorem check_some_implies_threshold (jieba : Option Segmenter) (q : Str)
    (b : CacheBackend) (d : Doc)
    (hex : b.exactGet = .absent)
    (h : check_query_cache jieba q b = some d) :
    SIMILARITY_THRESHOLD ≤ (scanMetas (tokenize jieba q) b).best_similarity := by
  unfold check_query_cache check_query_cache_body at h
  rw [hex] at h
  by_cases ht : tokenize jieba q = ∅
  · simp [ht] at h
  · by_cases hke : b.keysErr = true
    · simp [ht, hke] at h
    · by_cases hk : b.keys = []
      · simp [ht, hke, hk] at h
      · simp only [ht, hke, hk, if_false, Bool.false_eq_true] at h
        cases hbm : (scanMetas (tokenize jieba q) b).best_match with
        | none => simp [hbm] at h
        | some best =>
          by_cases hth :
              SIMILARITY_THRESHOLD ≤ (scanMetas (tokenize jieba q) b).best_similarity
          · exact hth
          · simp [hbm, hth] at h

/-- C4 (amended): the similarity lookup keeps, over the scanned cache-meta
candidates, one with the highest Jaccard similarity (the accumulated best
similarity bounds every scanned decodable candidate), returns a document
through the similarity path only when that best similarity is at least
0.80, and ties are broken by scan order — a later candidate whose
similarity does not strictly exceed the current best never replaces it
(`created_at` is not consulted). -/
theorem C4_similarity_selection (jieba : Option Segmenter) (q : Str)
    (b : CacheBackend) :
    (∀ k ∈ b.keys.take MAX_CACHE_SCAN, ∀ m, b.metaGet k = .ok m →
        jaccard_similarity (tokenize jieba q) m.tokens.toFinset ≤
          (scanMetas (tokenize jieba q) b).best_similarity)
  ∧ (∀ d : Doc, b.exactGet = .absent → check_query_cache jieba q b = some d →
        SIMILARITY_THRESHOLD ≤ (scanMetas (tokenize jieba q) b).best_similarity)
  ∧ (∀ (acc : ScanAcc) (k : Nat),
        (∀ m, b.metaGet k = .ok m →
          jaccard_similarity (tokenize jieba q) m.tokens.toFinset ≤
            acc.best_similarity) →
        scanStep (tokenize jieba q) b acc k = acc) := by
  refine ⟨fun k hk m hm => scanFold_bound _ b _ _ k hk m hm,
    fun d hex h => check_some_implies_threshold jieba q b d hex h,
    fun acc k hbound => ?_⟩
  unfold scanStep
  cases hm : b.metaGet k with
  | ok meta => simp [not_lt.mpr (hbound meta hm)]
  | err => rfl
  | absent => rfl
  | bad => rfl

def abStr : Str := "ab".toList
def cdStr : Str := "cd".toList

/-- A segmenter used in concrete instances. -/
def seg0 : Segmenter := fun _ => [abStr, cdStr]

def meta1 : CacheMeta := ⟨[], [abStr, cdStr], some ("k1".toList), 1⟩
def meta2 : CacheMeta := ⟨[], [abStr, cdStr], some ("k2".toList), 2⟩

/-- A concrete backend holding two equally similar candidates; the second
one is more recent. -/
def cxBackend : CacheBackend where
  exactGet := .absent
  keysErr := false
  keys := [0, 1]
  metaGet := fun k => if k = 0 then .ok meta1 else if k = 1 then .ok meta2 else .absent
  resGet := fun rk =>
    if rk = ("k1".toList) then .ok 11
    else if rk = ("k2".toList) then .ok 22 else .absent

theorem jaccard_self (S : Finset Str) (h : S ≠ ∅) :
    jaccard_similarity S S = 1 := by
  unfold jaccard_similarity
  rw [if_neg (by simp [h])]
  simp only [Finset.inter_self, Finset.union_self]
  have hc : 0 < S.card :=
    Finset.card_pos.mpr (Finset.nonempty_iff_ne_empty.mpr h)
  rw [if_pos hc]
  exact div_self (by exact_mod_cast Nat.pos_iff_ne_zero.mp hc)

theorem tokenize_cx_eq_meta1 :
    tokenize (some seg0) ("q".toList) = meta1.tokens.toFinset := by decide

theorem meta_tokens_eq : meta1.tokens.toFinset = meta2.tokens.toFinset := rfl

theorem jaccard_cx_meta1 :
    jaccard_similarity (tokenize (some seg0) ("q".toList)) meta1.tokens.toFinset = 1 := by
  rw [tokenize_cx_eq_meta1]
  exact jaccard_self _ (by decide)

theorem jaccard_cx_meta2 :
    jaccard_similarity (tokenize (some seg0) ("q".toList)) meta2.tokens.toFinset = 1 := by
  rw [tokenize_cx_eq_meta1, meta_tokens_eq]
  exact jaccard_self _ (by decide)

theorem scanMetas_cx :
    scanMetas (tokenize (some seg0) ("q".toList)) cxBackend = ⟨some meta1, 1⟩ := by
  have h0 : cxBackend.metaGet 0 = .ok meta1 := rfl
  have h1 : cxBackend.metaGet 1 = .ok meta2 := rfl
  have hkeys : cxBackend.keys.take MAX_CACHE_SCAN = [0, 1] := rfl
  unfold scanMetas
  rw [hkeys]
  simp only [List.foldl_cons, List.foldl_nil]
  unfold scanStep
  rw [h0, h1]
  simp only [jaccard_cx_meta1, jaccard_cx_meta2]
  norm_num

theorem check_cx :
    check_query_cache (some seg0) ("q".toList) cxBackend = some 11 := by
  unfold check_query_cache check_query_cache_body
  have hex : cxBackend.exactGet = .absent := rfl
  rw [hex]
  rw [if_neg (by decide : ¬ tokenize (some seg0) ("q".toList) = ∅)]
  rw [if_neg (by decide : ¬ cxBackend.keysErr = true)]
  rw [if_neg (by decide : ¬ cxBackend.keys = [])]
  rw [scanMetas_cx]
  norm_num [SIMILARITY_THRESHOLD]
  rfl

/-- C4 counterexample: two candidates tie at similarity 1 ≥ 0.80, the
second scanned (`meta2`) has the more recent `created_at`, yet the lookup
returns the first scanned candidate's document (11), not the more recent
candidate's (22): ties are not broken by `created_at`. -/
theorem C4_counterexample :
    check_query_cache (some seg0) ("q".toList) cxBackend = some 11
  ∧ jaccard_similarity (tokenize (some seg0) ("q".toList)) meta1.tokens.toFinset =
      jaccard_similarity (tokenize (some seg0) ("q".toList)) meta2.tokens.toFinset
  ∧ SIMILARITY_THRESHOLD ≤
      jaccard_similarity (tokenize (some seg0) ("q".toList)) meta2.tokens.toFinset
  ∧ meta1.created_at < meta2.created_at
  ∧ cxBackend.resGet ("k2".toList) = .ok 22
  ∧ (11 : Doc) ≠ 22 := by
  refine ⟨check_cx, ?_, ?_, by decide, by decide, by decide⟩
  · rw [jaccard_cx_meta1, jaccard_cx_meta2]
  · rw [jaccard_cx_meta2]
    norm_num [SIMILARITY_THRESHOLD]

/-- C4 witness: the amended selection properties at the concrete backend. -/
theorem C4_similarity_selection_witness :
    jaccard_similarity (tokenize (some seg0) ("q".toList)) meta1.tokens.toFinset ≤
      (scanMetas (tokenize (some seg0) ("q".toList)) cxBackend).best_similarity
  ∧ SIMILARITY_THRESHOLD ≤
      (scanMetas (tokenize (some seg0) ("q".toList)) cxBackend).best_similarity
  ∧ scanStep (tokenize (some seg0) ("q".toList)) cxBackend ⟨some meta1, 1⟩ 5 =
      ⟨some meta1, 1⟩ :=
  ⟨(C4_similarity_selection (some seg0) ("q".toList) cxBackend).1 0 (by decide)
      meta1 rfl,
   (C4_similarity_selection (some seg0) ("q".toList) cxBackend).2.1 11 rfl check_cx,
   (C4_similarity_selection (some seg0) ("q".toList) cxBackend).2.2 ⟨some meta1, 1⟩ 5
      (fun m hm => Fetch.noConfusion hm)⟩

/-- C7 (amended): tokenization is deterministic (it is a pure function of
the segmenter and the text); when the jieba segmenter is available the
token set excludes the stop-word list and all single-character tokens;
when the segmenter is unavailable (ImportError) tokenization degrades to
the raw character set, which can contain single-character stop-words; a
query whose token set is empty disables similarity matching entirely, so
with no exact hit the lookup returns None without scanning. -/
theorem C7_tokenize_properties (f : Segmenter) (jieba : Option Segmenter)
    (q : Str) (b : CacheBackend) :
    tokenize jieba q = tokenize jieba q
  ∧ (∀ w ∈ tokenize (some f) q, 1 < w.length ∧ stopwords.contains w = false)
  ∧ (tokenize jieba q = ∅ → b.exactGet = .absent →
      check_query_cache jieba q b = none) := by
  refine ⟨rfl, fun w hw => ?_, fun ht hex => ?_⟩
  · simp only [tokenize, List.mem_toFinset, List.mem_filter] at hw
    obtain ⟨-, hp⟩ := hw
    rw [Bool.and_eq_true] at hp
    obtain ⟨h1, h2⟩ := hp
    exact ⟨of_decide_eq_true h1, by simpa using h2⟩
  · unfold check_query_cache check_query_cache_body
    rw [hex]
    simp [ht]

/-- C7 counterexample: with jieba unavailable, the query consisting of the
single stop-word character 的 tokenizes to a set that contains a
single-character stop-word token, contradicting the claimed exclusions. -/
theorem C7_counterexample :
    (['的'] : Str) ∈ tokenize none ['的']
  ∧ (['的'] : Str).length = 1
  ∧ stopwords.contains ['的'] = true := by
  refine ⟨by decide, rfl, by decide⟩

/-- A segmenter returning no words, used in concrete instances. -/
def emptySeg : Segmenter := fun _ => []

/-- C7 witness: the jieba-path exclusions at a concrete token, and the
empty-token-set short-circuit at a concrete backend. -/
theorem C7_tokenize_properties_witness :
    (1 < abStr.length ∧ stopwords.contains abStr = false)
  ∧ check_query_cache (some emptySeg) ("q".toList) cxBackend = none :=
  ⟨(C7_tokenize_properties seg0 (some seg0) ("q".toList) cxBackend).2.1
      abStr (by decide),
   (C7_tokenize_properties emptySeg (some emptySeg) ("q".toList) cxBackend).2.2
      (by decide) rfl⟩

/-- C9: the exact-hash lookup runs and returns before any similarity
search (an exact hit is returned whatever the meta entries hold);
the similarity search examines at most the first 100 cache-meta keys
(restricting the backend's key list to its first 100 entries does not
change the lookup); and when the chosen best candidate's referenced result
key is missing, the body completes with `ok none` — no error is raised and
the lookup falls through to a cache miss. -/
theorem C9_lookup_order (jieba : Option Segmenter) (q : Str) (b : CacheBackend) :
    (∀ d : Doc, b.exactGet = .ok d → check_query_cache jieba q b = some d)
  ∧ check_query_cache jieba q b =
      check_query_cache jieba q { b with keys := b.keys.take MAX_CACHE_SCAN }
  ∧ (∀ best : CacheMeta, b.exactGet = .absent → b.keysErr = false →
      (scanMetas (tokenize jieba q) b).best_match = some best →
      (∀ rk, best.result_key = some rk → b.resGet rk = .absent) →
      check_query_cache_body jieba q b = .ok none
        ∧ check_query_cache jieba q b = none) := by
  refine ⟨fun d h => ?_, ?_, fun best hex hke hbm hres => ?_⟩
  · simp [check_query_cache, check_query_cache_body, h]
  · have hexp : ({ b with keys := b.keys.take MAX_CACHE_SCAN } :
        CacheBackend).exactGet = b.exactGet := rfl
    have hkep : ({ b with keys := b.keys.take MAX_CACHE_SCAN } :
        CacheBackend).keysErr = b.keysErr := rfl
    have hkeysp : ({ b with keys := b.keys.take MAX_CACHE_SCAN } :
        CacheBackend).keys = b.keys.take MAX_CACHE_SCAN := rfl
    have hscan : scanMetas (tokenize jieba q)
        { b with keys := b.keys.take MAX_CACHE_SCAN } =
        scanMetas (tokenize jieba q) b := by
      unfold scanMetas
      rw [hkeysp, List.take_take, min_self]
      rfl
    have hbody : check_query_cache_body jieba q
        { b with keys := b.keys.take MAX_CACHE_SCAN } =
        check_query_cache_body jieba q b := by
      unfold check_query_cache_body
      rw [hexp, hkep, hkeysp, hscan]
      cases b.exactGet with
      | err => rfl
      | bad => rfl
      | ok d => rfl
      | absent =>
        by_cases ht : tokenize jieba q = ∅
        · simp [ht]
        · by_cases hk : b.keys = []
          · simp [ht, hk]
          · have hne : ¬ (b.keys.take MAX_CACHE_SCAN = []) := by
              rw [List.take_eq_nil_iff]
              push_neg
              exact ⟨by decide, hk⟩
            simp only [ht, if_false, hne, hk]
    unfold check_query_cache
    rw [hbody]
  · have hbody : check_query_cache_body jieba q b = .ok none := by
      unfold check_query_cache_body
      rw [hex]
      by_cases ht : tokenize jieba q = ∅
      · simp [ht]
      · rw [if_neg ht, hke]
        by_cases hk : b.keys = []
        · simp [hk]
        · simp only [Bool.false_eq_true, if_false, hk, hbm]
          by_cases hth : SIMILARITY_THRESHOLD ≤
              (scanMetas (tokenize jieba q) b).best_similarity
          · rw [if_pos hth]
            cases hrk : best.result_key with
            | none => rfl
            | some rk => simp [hres rk hrk]
          · rw [if_neg hth]
    exact ⟨hbody, by unfold check_query_cache; rw [hbody]⟩

/-- A backend whose exact entry hits. -/
def exactHitBackend : CacheBackend := { cxBackend with exactGet := .ok 7 }

/-- A backend like `cxBackend` whose result entries are all missing. -/
def cx2Backend : CacheBackend := { cxBackend with resGet := fun _ => .absent }

/-- C9 witness: the exact hit wins at a concrete backend, and a chosen best
candidate with a missing result entry yields a cache miss with no error. -/
theorem C9_lookup_order_witness :
    check_query_cache (some seg0) ("q".toList) exactHitBackend = some 7
  ∧ check_query_cache_body (some seg0) ("q".toList) cx2Backend = .ok none :=
  ⟨(C9_lookup_order (some seg0) ("q".toList) exactHitBackend).1 7 rfl,
   ((C9_lookup_order (some seg0) ("q".toList) cx2Backend).2.2 meta1 rfl rfl
      (by exact congrArg ScanAcc.best_match scanMetas_cx)
      (fun rk _ => rfl)).1⟩

/-- C10: cache operations are total at their public boundary: every
exception of the lookup body is caught and turned into a cache miss, a
successful body value is passed through, a JSON-decoding failure of the
exact entry is a cache miss, the cache write returns normally whatever its
backend does, and the post-render finalize step completes with status
`completed` and the rendered document for every cache-write environment. -/
theorem C10_cache_totality (jieba : Option Segmenter) (q : Str)
    (b : CacheBackend) (env : SetCacheEnv) (ir : Doc) :
    (∀ e, check_query_cache_body jieba q b = .error e →
        check_query_cache jieba q b = none)
  ∧ (∀ v, check_query_cache_body jieba q b = .ok v →
        check_query_cache jieba q b = v)
  ∧ (b.exactGet = .bad → check_query_cache jieba q b = none)
  ∧ set_query_cache env = .ok ()
  ∧ generate_report_finalize ir env = .ok (completedStr, ir) := by
  refine ⟨fun e h => ?_, fun v h => ?_, fun h => ?_, ?_, ?_⟩
  · unfold check_query_cache
    rw [h]
  · unfold check_query_cache
    rw [h]
  · simp [check_query_cache, check_query_cache_body, h]
  · unfold set_query_cache
    cases set_query_cache_body env <;> rfl
  · unfold generate_report_finalize
    have hs : set_query_cache env = .ok () := by
      unfold set_query_cache
      cases set_query_cache_body env <;> rfl
    rw [hs]
    rfl

/-- A backend whose first operation raises. -/
def errBackend : CacheBackend := { cxBackend with exactGet := .err }

/-- A backend whose exact entry is present but undecodable. -/
def badBackend : CacheBackend := { cxBackend with exactGet := .bad }

/-- C10 witness: at concrete failing backends the lookup returns a plain
cache miss. -/
theorem C10_cache_totality_witness :
    check_query_cache (some seg0) ("q".toList) errBackend = none
  ∧ check_query_cache (some seg0) ("q".toList) badBackend = none :=
  ⟨(C10_cache_totality (some seg0) ("q".toList) errBackend
      ⟨true, true, true⟩ 0).1 .io rfl,
   (C10_cache_totality (some seg0) ("q".toList) badBackend
      ⟨true, true, true⟩ 0).2.2.1 rfl⟩

-- ==================== agents_phased.py: state_dict prerequisites ====================

/-- An agent payload: a Python dict, modelled as an association list from
string keys to opaque values. -/
abbrev Payload := List (Str × Nat)

def hasKey (p : Payload) (k : Str) : Bool := p.any (fun kv => kv.1 == k)

def stateDictKey : Str := "state_dict".toList

def errMissingPlan : Str := "未找到有效的 Plan 结果（缺少 state_dict）".toList
def errMissingResearch : Str := "未找到有效的 Research 结果（缺少 state_dict）".toList

/-- The prerequisite guard `if not payload or 'state_dict' not in payload:
raise ValueError(msg)` followed by the opaque agent call, shared verbatim
by the research/report/supplemental tasks of all three agents
(agents_phased.py lines 105-107, 155-157, 250-251, 299-301, 393-395,
443-445, 490-492, 525-527, 558-560). -/
def phaseGate {α : Type} (payload : Option Payload) (msg : Str)
    (agentCall : Payload → α) : Except Str α :=
  match payload with
  | none => .error msg
  | some p =>
    if p.isEmpty || !(hasKey p stateDictKey) then .error msg
    else .ok (agentCall p)

/-- `query_research` (agents_phased.py lines 84-130), restricted to the
payload flow: the stored Plan payload is read and the guard of lines
105-107 raises when it is absent, empty, or lacks `state_dict`; otherwise
the opaque `execute_research` runs on it. -/
def query_research (plan : Option Payload)
    (execute_research : Payload → Payload) : Except Str Payload :=
  phaseGate plan errMissingPlan execute_research

/-- `query_report` (agents_phased.py lines 134-174): same guard against
the stored Research payload, then the opaque `generate_report`. -/
def query_report (research : Option Payload)
    (generate_report : Payload → Str) : Except Str Str :=
  phaseGate research errMissingResearch generate_report

/-- `query_supplemental_research` (agents_phased.py lines 468-509): same
guard against the stored Research payload, then the opaque
`execute_supplemental_research`. -/
def query_supplemental_research (research : Option Payload)
    (execute_supplemental_research : Payload → Payload) : Except Str Payload :=
  phaseGate research errMissingResearch execute_supplemental_research

theorem hasKey_nil (k : Str) : hasKey [] k = false := rfl

theorem isEmpty_false_of_hasKey {p : Payload} {k : Str}
    (h : hasKey p k = true) : p.isEmpty = false := by
  cases p with
  | nil => simp [hasKey] at h
  | cons kv t => rfl

theorem phaseGate_error_iff {α : Type} (payload : Option Payload)
    (msg : Str) (f : Payload → α) :
    (∃ e, phaseGate payload msg f = .error e) ↔
      (payload = none ∨ ∃ p, payload = some p ∧ hasKey p stateDictKey = false) := by
  cases payload with
  | none => simp [phaseGate]
  | some p =>
    cases hk : hasKey p stateDictKey with
    | false =>
      simp only [phaseGate, hk]
      simp [hk]
    | true =>
      simp only [phaseGate, hk, isEmpty_false_of_hasKey hk]
      simp [hk]

theorem phaseGate_ok {α : Type} (p : Payload) (msg : Str) (f : Payload → α)
    (h : hasKey p stateDictKey = true) :
    phaseGate (some p) msg f = .ok (f p) := by
  simp [phaseGate, h, isEmpty_false_of_hasKey h]

/-- C5: the Research phase task fails (an error, no fabricated substitute)
exactly when the agent's stored Plan payload is absent or lacks the
`state_dict` key; the Report phase task and the supplemental-research task
fail in the same way against the stored Research payload; and the
missing-state_dict error branch is unreachable when the predecessor
payload contains `state_dict` — the task then runs the agent call. -/
theorem C5_state_dict_gate (plan research : Option Payload)
    (er es : Payload → Payload) (gr : Payload → Str) :
    ((∃ e, query_research plan er = .error e) ↔
      (plan = none ∨ ∃ p, plan = some p ∧ hasKey p stateDictKey = false))
  ∧ ((∃ e, query_report research gr = .error e) ↔
      (research = none ∨ ∃ p, research = some p ∧ hasKey p stateDictKey = false))
  ∧ ((∃ e, query_supplemental_research research es = .error e) ↔
      (research = none ∨ ∃ p, research = some p ∧ hasKey p stateDictKey = false))
  ∧ (∀ p, plan = some p → hasKey p stateDictKey = true →
      query_research plan er = .ok (er p)) := by
  refine ⟨phaseGate_error_iff plan errMissingPlan er,
    phaseGate_error_iff research errMissingResearch gr,
    phaseGate_error_iff research errMissingResearch es,
    fun p hp hk => ?_⟩
  rw [hp]
  exact phaseGate_ok p errMissingPlan er hk

/-- A payload carrying a state_dict. -/
def goodPayload : Payload := [(stateDictKey, 0)]

/-- C5 witness: at concrete payloads, an absent Plan makes the Research
task fail and a Plan carrying state_dict makes it run the agent call. -/
theorem C5_state_dict_gate_witness :
    (∃ e, query_research none id = .error e)
  ∧ query_research (some goodPayload) id = .ok goodPayload :=
  ⟨(C5_state_dict_gate none none id id (fun _ => []) ).1.mpr (Or.inl rfl),
   (C5_state_dict_gate (some goodPayload) none id id (fun _ => [])).2.2.2
      goodPayload rfl (by decide)⟩

-- ==================== blackboard.py: forum log summary ====================

/-- One forum-log entry (speaker, content); the timestamp is not read by
the summarizer. -/
structure LogEntry where
  speaker : Str
  content : Str
deriving DecidableEq

/-- important_keywords (blackboard.py line 393). -/
def importantKeywords : List Str :=
  ["评审", "决策", "Guidance", "补充", "approve", "revise", "supplement",
   "调整"].map (fun s => s.toList)

/-- skip_keywords (blackboard.py line 395). -/
def skipKeywords : List Str :=
  ["开始 Plan", "开始 Research", "开始 Phase", "阶段开始",
   "初始化"].map (fun s => s.toList)

def orchestratorSpk : Str := "orchestrator".toList

/-- The formatted line `f"[{speaker}] {content}"` (blackboard.py line 415). -/
def formatLine (log : LogEntry) : Str :=
  '[' :: (log.speaker ++ ']' :: ' ' :: log.content)

/-- should_skip (blackboard.py lines 405-407). -/
def shouldSkip (log : LogEntry) : Bool :=
  (skipKeywords.any (fun kw => strContainsSub log.content kw)) &&
    !(log.speaker == orchestratorSpk)

/-- is_important (blackboard.py lines 410-413). -/
def isImportant (log : LogEntry) : Bool :=
  (log.speaker == orchestratorSpk) ||
    importantKeywords.any (fun kw => strContainsSub log.content kw)

/-- The classification loop of `get_forum_log_summary` (blackboard.py
lines 400-419): drop skip-matching non-orchestrator entries, split the
rest into important and other lines, order preserved. -/
def classifyLogs : List LogEntry → List Str × List Str
  | [] => ([], [])
  | log :: rest =>
    let parts := classifyLogs rest
    if shouldSkip log then parts
    else if isImportant log then (formatLine log :: parts.1, parts.2)
    else (parts.1, formatLine log :: parts.2)

def sumLens (ls : List Str) : Nat := (ls.map List.length).sum

/-- The fill loop (blackboard.py lines 425-429): append other lines while
the tracked length stays within the budget. -/
def fillOther (maxChars : Nat) : Nat → List Str → List Str
  | _, [] => []
  | current, line :: rest =>
    if maxChars < current + line.length + 1 then []
    else line :: fillOther maxChars (current + line.length + 1) rest

def joinLines (ls : List Str) : Str := List.intercalate ['\n'] ls

/-- The ellipsis sentinel `'\n...(讨论记录已截断)'` (blackboard.py line 435). -/
def truncSentinel : Str := '\n' :: "...(讨论记录已截断)".toList

/-- The selected lines of the summary (important lines first, then the
filled other lines), joined by newlines (blackboard.py lines 421-431). -/
def forumSelection (logs : List LogEntry) (maxChars : Nat) : Str :=
  joinLines ((classifyLogs logs).1 ++
    fillOther maxChars (sumLens (classifyLogs logs).1) (classifyLogs logs).2)

/-- `get_forum_log_summary` (blackboard.py lines 377-437): the selection,
truncated with the sentinel when it exceeds the budget. -/
def get_forum_log_summary (logs : List LogEntry) (maxChars : Nat) : Str :=
  if maxChars < (forumSelection logs maxChars).length
  then (forumSelection logs maxChars).take (maxChars - 20) ++ truncSentinel
  else forumSelection logs maxChars

theorem fillOther_eq_take (m : Nat) :
    ∀ (l : List Str) (c : Nat), ∃ n, fillOther m c l = l.take n := by
  intro l
  induction l with
  | nil => intro c; exact ⟨0, rfl⟩
  | cons line rest ih =>
    intro c
    unfold fillOther
    by_cases h : m < c + line.length + 1
    · exact ⟨0, by rw [if_pos h]; rfl⟩
    · obtain ⟨n, hn⟩ := ih (c + line.length + 1)
      exact ⟨n + 1, by rw [if_neg h, hn]; rfl⟩

theorem classifyLogs_eq (logs : List LogEntry) :
    classifyLogs logs =
      ((logs.filter (fun l => !(shouldSkip l) && isImportant l)).map formatLine,
       (logs.filter (fun l => !(shouldSkip l) && !(isImportant l))).map formatLine) := by
  induction logs with
  | nil => rfl
  | cons log rest ih =>
    unfold classifyLogs
    rw [ih]
    by_cases hs : shouldSkip log
    · simp [hs, List.filter_cons]
    · by_cases hi : isImportant log
      · simp [hs, hi, List.filter_cons]
      · simp [hs, hi, List.filter_cons]

/-- C6 (amended): entries matching a skip keyword with a non-orchestrator
speaker are dropped first; among the remaining entries, important lines
(orchestrator speaker or important-vocabulary match) come first in order,
then other lines in order as an in-order prefix admitted by the
2,000-character budget; the returned summary is at most 2,000 characters
long; and the truncation sentinel is appended exactly when the joined
selection exceeds the budget (otherwise the selection is returned
unchanged). -/
theorem C6_forum_summary (logs : List LogEntry) :
    (get_forum_log_summary logs 2000).length ≤ 2000
  ∧ ((forumSelection logs 2000).length ≤ 2000 →
      get_forum_log_summary logs 2000 = forumSelection logs 2000)
  ∧ (2000 < (forumSelection logs 2000).length →
      get_forum_log_summary logs 2000 =
        (forumSelection logs 2000).take (2000 - 20) ++ truncSentinel)
  ∧ (∃ n, forumSelection logs 2000 =
      joinLines ((classifyLogs logs).1 ++ (classifyLogs logs).2.take n))
  ∧ classifyLogs logs =
      ((logs.filter (fun l => !(shouldSkip l) && isImportant l)).map formatLine,
       (logs.filter (fun l => !(shouldSkip l) && !(isImportant l))).map formatLine) := by
  refine ⟨?_, fun h => ?_, fun h => ?_, ?_, classifyLogs_eq logs⟩
  · unfold get_forum_log_summary
    by_cases h : 2000 < (forumSelection logs 2000).length
    · rw [if_pos h, List.length_append, List.length_take]
      have hm := Nat.min_le_left (2000 - 20) (forumSelection logs 2000).length
      have hsl : truncSentinel.length = 13 := rfl
      omega
    · rw [if_neg h]
      omega
  · unfold get_forum_log_summary
    rw [if_neg (by omega)]
  · unfold get_forum_log_summary
    rw [if_pos h]
  · obtain ⟨n, hn⟩ := fillOther_eq_take 2000 (classifyLogs logs).2
      (sumLens (classifyLogs logs).1)
    exact ⟨n, by rw [forumSelection, hn]⟩

/-- An entry matching both a skip keyword and an important keyword, with a
non-orchestrator speaker. -/
def skipImpLog : LogEntry := ⟨"query".toList, "初始化 评审".toList⟩

/-- C6 counterexample: an entry whose content matches the important
vocabulary (评审) is dropped entirely — summary empty — because it also
matches a skip keyword (初始化) and its speaker is not the orchestrator;
the claim says every important-vocabulary entry is kept first. -/
theorem C6_counterexample :
    get_forum_log_summary [skipImpLog] 2000 = []
  ∧ importantKeywords.any (fun kw => strContainsSub skipImpLog.content kw) = true
  ∧ (skipImpLog.speaker == orchestratorSpk) = false := by
  refine ⟨by decide, by decide, by decide⟩

/-- A long orchestrator entry that overflows the budget. -/
def bigLog : LogEntry := ⟨orchestratorSpk, List.replicate 2100 'a'⟩

theorem bigLog_selection_length :
    (forumSelection [bigLog] 2000).length = 2115 := by
  have hsp : (bigLog.speaker == orchestratorSpk) = true := by decide
  have hskip : shouldSkip bigLog = false := by
    unfold shouldSkip
    rw [hsp]
    simp
  have himp : isImportant bigLog = true := by
    unfold isImportant
    rw [hsp]
    simp
  have hcl : classifyLogs [bigLog] = ([formatLine bigLog], []) := by
    simp [classifyLogs, hskip, himp]
  unfold forumSelection
  rw [hcl]
  have hfill : fillOther 2000 (sumLens [formatLine bigLog]) [] = [] := rfl
  rw [hfill, List.append_nil]
  have hjoin : joinLines [formatLine bigLog] = formatLine bigLog := by
    simp [joinLines, List.intercalate]
  rw [hjoin]
  have hsp2 : bigLog.speaker.length = 12 := by decide
  have hc : bigLog.content.length = 2100 := by
    show (List.replicate 2100 'a').length = 2100
    exact List.length_replicate 2100 'a'
  unfold formatLine
  simp only [List.length_cons, List.length_append, hsp2, hc]

/-- C6 witness: the under-budget case returns the selection unchanged and
the over-budget case truncates and appends the sentinel. -/
theorem C6_forum_summary_witness :
    get_forum_log_summary [] 2000 = forumSelection [] 2000
  ∧ get_forum_log_summary [bigLog] 2000 =
      (forumSelection [bigLog] 2000).take (2000 - 20) ++ truncSentinel :=
  ⟨(C6_forum_summary []).2.1 (by decide),
   (C6_forum_summary [bigLog]).2.2.1 (by rw [bigLog_selection_length]; norm_num)⟩

-- ==================== orchestrator.py: judge and decision flow ====================

/-- The outcome of one chat-completions call as `_call_llm_for_decision`
distinguishes them: a content-policy rejection, any other exception, a
response with no usable choices, or a reply text. -/
inductive CallOutcome where
  | policyError : CallOutcome
  | otherError : CallOutcome
  | emptyReply : CallOutcome
  | reply : Str → CallOutcome
deriving DecidableEq

/-- The configuration and LLM behaviour `_call_llm_for_decision` observes:
whether an API key is configured, the primary call's outcome, whether the
DeepSeek fallback is configured, and its outcome. -/
structure JudgeEnv where
  apiKey : Bool
  primary : CallOutcome
  deepseekKey : Bool
  deepseek : CallOutcome
deriving DecidableEq

/-- `_call_llm_for_decision` (orchestrator.py lines 257-372): a missing
key, any exception, or an empty reply yields ('approve', ''); a
content-policy rejection retries once against the DeepSeek fallback
before falling through to ('approve', ''); a reply text is parsed. -/
def call_llm_for_decision (env : JudgeEnv) : Str × Str :=
  if !env.apiKey then (approveStr, [])
  else
    match env.primary with
    | .reply content => parse_llm_response content
    | .emptyReply => (approveStr, [])
    | .otherError => (approveStr, [])
    | .policyError =>
      if !env.deepseekKey then (approveStr, [])
      else
        match env.deepseek with
        | .reply content => parse_llm_response content
        | _ => (approveStr, [])

/-- The Judge-error environments of the failure-policy claim: missing
configuration, a call exception, an empty reply, or a policy rejection
whose fallback is unconfigured or also fails. -/
def judge_error_env (env : JudgeEnv) : Bool :=
  !env.apiKey ||
  (match env.primary with
   | .otherError => true
   | .emptyReply => true
   | .policyError =>
       !env.deepseekKey ||
       (match env.deepseek with
        | .reply _ => false
        | _ => true)
   | .reply _ => false)

/-- One observable effect of the orchestration code: a forum-log append, a
guidance write, the round-counter increment, a status-store update, a
fan-out of an adapter operation to agents, a chord barrier callback, a
direct task invocation, or a Judge LLM invocation. -/
inductive BBEvent where
  | forumAppend : Str → Str → BBEvent
  | guidanceWrite : Str → Str → BBEvent
  | roundIncrement : BBEvent
  | statusUpdate : Str → Nat → BBEvent
  | fanOut : Str → List Str → BBEvent
  | chordCallback : Str → BBEvent
  | invokeTask : Str → BBEvent
  | llmInvoke : Str → BBEvent
deriving DecidableEq

def BBEvent.isStatusUpdate : BBEvent → Bool
  | .statusUpdate _ _ => true
  | _ => false

def BBEvent.isLlmInvoke : BBEvent → Bool
  | .llmInvoke _ => true
  | _ => false

def planStr : Str := "plan".toList
def researchStr : Str := "research".toList
def systemSpk : Str := "system".toList
def planStartMsg : Str := "开始评审所有 Agent 的 Plan".toList
def researchStartMsg : Str := "开始评审所有 Agent 的 Research".toList
def autoPassSuffix : Str := "，自动通过".toList
def planFailMsg (e : Str) : Str := "Plan 评审失败：".toList ++ e ++ autoPassSuffix
def researchFailMsg (e : Str) : Str :=
  "Research 评审失败：".toList ++ e ++ autoPassSuffix
def maxRoundMsg : Str := "已达到最大补充轮次，强制通过".toList
def planReviewMsg (d : Str) : Str := "Plan 评审：".toList ++ d
def planReviewGuidanceMsg (d : Str) : Str :=
  "Plan 评审：".toList ++ d ++ "，生成 Guidance".toList
def researchSupplMsg (n : Nat) : Str :=
  "Research 评审：需要补充（轮次 ".toList ++ (Nat.repr n).toList ++ "）".toList
def researchReviewMsg (d : Str) : Str := "Research 评审：".toList ++ d

/-- The environment of one orchestrate task: the Judge environment and, if
the blackboard raises inside the try body (after the opening forum
append), the exception text. -/
structure OrchEnv where
  judge : JudgeEnv
  bbError : Option Str
deriving DecidableEq

/-- What an orchestrate task returns and the ordered effects it performed. -/
structure OrchResult where
  decision : Str
  guidance : Str
  events : List BBEvent
deriving DecidableEq

/-- `orchestrate_plan` (orchestrator.py lines 106-170): on an exception the
except-handler appends a failure forum entry and returns
('approve', ''); otherwise the Judge decides, guidance (when non-empty) is
saved, and the decision is logged to the forum. No status update is
performed. -/
def orchestrate_plan (env : OrchEnv) : OrchResult :=
  match env.bbError with
  | some e =>
      ⟨approveStr, [],
        [.forumAppend orchestratorSpk planStartMsg,
         .forumAppend orchestratorSpk (planFailMsg e)]⟩
  | none =>
      ⟨(call_llm_for_decision env.judge).1, (call_llm_for_decision env.judge).2,
        .forumAppend orchestratorSpk planStartMsg ::
        .llmInvoke planStr ::
        (if (call_llm_for_decision env.judge).2.isEmpty then
          [.forumAppend orchestratorSpk
            (planReviewMsg (call_llm_for_decision env.judge).1)]
         else
          [.guidanceWrite planStr (call_llm_for_decision env.judge).2,
           .forumAppend orchestratorSpk
            (planReviewGuidanceMsg (call_llm_for_decision env.judge).1)])⟩

/-- `orchestrate_research` (orchestrator.py lines 173-252), as a function
of the supplement round read at entry (`get_supplement_round`, 0 when the
key is absent): an exception yields ('approve', '') with a failure forum
entry; a round ≥ 1 yields ('approve', '') with the forced-pass forum
entry, without incrementing; otherwise the Judge decides and, on
'supplement', the counter is incremented first, the round forum entry
appended, then non-empty guidance saved under guidance:research. The
returned Nat is the round counter after the call. -/
def orchestrate_research (round : Nat) (env : OrchEnv) : OrchResult × Nat :=
  match env.bbError with
  | some e =>
      (⟨approveStr, [],
        [.forumAppend orchestratorSpk researchStartMsg,
         .forumAppend orchestratorSpk (researchFailMsg e)]⟩, round)
  | none =>
    if 1 ≤ round then
      (⟨approveStr, [],
        [.forumAppend orchestratorSpk researchStartMsg,
         .forumAppend orchestratorSpk maxRoundMsg]⟩, round)
    else
      if (call_llm_for_decision env.judge).1 = supplementStr then
        (⟨(call_llm_for_decision env.judge).1, (call_llm_for_decision env.judge).2,
          [.forumAppend orchestratorSpk researchStartMsg,
           .llmInvoke researchStr,
           .roundIncrement,
           .forumAppend orchestratorSpk (researchSupplMsg (round + 1))] ++
          (if (call_llm_for_decision env.judge).2.isEmpty then []
           else [.guidanceWrite researchStr (call_llm_for_decision env.judge).2])⟩,
         round + 1)
      else
        (⟨(call_llm_for_decision env.judge).1, (call_llm_for_decision env.judge).2,
          [.forumAppend orchestratorSpk researchStartMsg,
           .llmInvoke researchStr,
           .forumAppend orchestratorSpk
             (researchReviewMsg (call_llm_for_decision env.judge).1)]⟩, round)

def agentsAll : List Str := ["query".toList, "media".toList, "insight".toList]

/-- `handle_research_decision` (analysis.py lines 446-497): on
'supplement' it appends a forum note, re-saves non-empty guidance under
guidance:research, sets status phase2_supplement/70, and fans out the
regular research tasks — whose adapter operation is `execute_research` —
to all three agents with `trigger_phase3_report` as the chord callback;
otherwise it logs approval and invokes `trigger_phase3_report` directly. -/
def handle_research_decision (decision guidance : Str) : List BBEvent :=
  if decision = supplementStr then
    (.forumAppend systemSpk ("需要补充研究，Guidance: ".toList ++ guidance)) ::
    ((if guidance.isEmpty then [] else [.guidanceWrite researchStr guidance]) ++
     [.statusUpdate ("phase2_supplement".toList) 70,
      .fanOut ("execute_research".toList) agentsAll,
      .chordCallback ("trigger_phase3_report".toList)])
  else
    [.forumAppend systemSpk ("Research 通过，开始生成报告".toList),
     .invokeTask ("trigger_phase3_report".toList)]

/-- `trigger_phase3_report` (analysis.py lines 500-533): forum note,
status phase3_report/75, fan out the report tasks (adapter operation
`generate_report`) with `generate_final_report` as the chord callback. It
never invokes the Judge. -/
def trigger_phase3_report_events : List BBEvent :=
  [.forumAppend systemSpk ("开始 Phase 3 (Report)".toList),
   .statusUpdate ("phase3_report".toList) 75,
   .fanOut ("generate_report".toList) agentsAll,
   .chordCallback ("generate_final_report".toList)]

/-- The chained flow `orchestrate_research | handle_research_decision`
(analysis.py lines 438-443): the trace of both steps and the round after. -/
def research_decision_flow (round : Nat) (env : OrchEnv) : List BBEvent × Nat :=
  ((orchestrate_research round env).1.events ++
    handle_research_decision (orchestrate_research round env).1.decision
      (orchestrate_research round env).1.guidance,
   (orchestrate_research round env).2)

/-- Iterated research reviews: the round counter after a sequence of
`orchestrate_research` invocations. -/
def run_research_reviews (envs : List OrchEnv) (r0 : Nat) : Nat :=
  envs.foldl (fun r env => (orchestrate_research r env).2) r0

theorem call_llm_error (env : JudgeEnv) (h : judge_error_env env = true) :
    call_llm_for_decision env = (approveStr, []) := by
  unfold judge_error_env at h
  unfold call_llm_for_decision
  cases hk : env.apiKey with
  | false => simp [hk]
  | true =>
    rw [hk] at h
    simp only [Bool.not_true, Bool.false_or] at h
    simp only [hk, Bool.not_true, Bool.false_eq_true, if_false]
    cases hp : env.primary with
    | reply c => rw [hp] at h; simp at h
    | otherError => rfl
    | emptyReply => rfl
    | policyError =>
      rw [hp] at h
      cases hdk : env.deepseekKey with
      | false => simp [hdk]
      | true =>
        rw [hdk] at h
        simp only [Bool.not_true, Bool.false_or] at h
        simp only [hdk, Bool.not_true, Bool.false_eq_true, if_false]
        cases hd : env.deepseek with
        | reply c => rw [hd] at h; simp at h
        | policyError => rfl
        | otherError => rfl
        | emptyReply => rfl

theorem step_round_le (r : Nat) (env : OrchEnv) (h : r ≤ 1) :
    (orchestrate_research r env).2 ≤ 1 := by
  unfold orchestrate_research
  cases env.bbError with
  | some e => simpa using h
  | none =>
    by_cases hr : 1 ≤ r
    · simpa [hr] using h
    · have hr0 : r = 0 := by omega
      subst hr0
      by_cases hd : (call_llm_for_decision env.judge).1 = supplementStr
      · simp [hd]
      · simp [hd]

theorem run_research_reviews_le (envs : List OrchEnv) :
    ∀ r, r ≤ 1 → run_research_reviews envs r ≤ 1 := by
  induction envs with
  | nil => intro r h; simpa [run_research_reviews] using h
  | cons e t ih =>
    intro r h
    simp only [run_research_reviews, List.foldl_cons] at ih ⊢
    exact ih _ (step_round_le r e h)

/-- C1: the supplement round counter starts at 0 (an absent counter key
reads as 0) and never exceeds 1 across any sequence of research reviews;
when the counter read at entry is ≥ 1, `orchestrate_research` returns
decision approve with empty guidance, leaves the counter unchanged and
performs no increment; and it returns decision supplement only when the
counter read at entry was 0, in which case the counter becomes 1. -/
theorem C1_supplement_round_bound (round : Nat) (env : OrchEnv)
    (envs : List OrchEnv) :
    (1 ≤ round →
        (orchestrate_research round env).1.decision = approveStr
      ∧ (orchestrate_research round env).1.guidance = []
      ∧ (orchestrate_research round env).2 = round
      ∧ BBEvent.roundIncrement ∉ (orchestrate_research round env).1.events)
  ∧ ((orchestrate_research round env).1.decision = supplementStr →
      round = 0 ∧ (orchestrate_research round env).2 = round + 1)
  ∧ run_research_reviews envs 0 ≤ 1 := by
  refine ⟨fun hr => ?_, fun hd => ?_,
    run_research_reviews_le envs 0 (by omega)⟩
  · unfold orchestrate_research
    cases env.bbError with
    | some e => exact ⟨rfl, rfl, rfl, by simp⟩
    | none =>
      rw [if_pos hr]
      exact ⟨rfl, rfl, rfl, by simp⟩
  · unfold orchestrate_research at hd ⊢
    cases hbb : env.bbError with
    | some e =>
      rw [hbb] at hd
      exact absurd (show approveStr = supplementStr from hd) (by decide)
    | none =>
      rw [hbb] at hd
      by_cases hr : 1 ≤ round
      · rw [if_pos hr] at hd
        exact absurd (show approveStr = supplementStr from hd) (by decide)
      · rw [if_neg hr] at hd ⊢
        have hr0 : round = 0 := by omega
        by_cases hsd : (call_llm_for_decision env.judge).1 = supplementStr
        · rw [if_pos hsd]
          exact ⟨hr0, rfl⟩
        · rw [if_neg hsd] at hd
          exact absurd
            (show (call_llm_for_decision env.judge).1 = supplementStr from hd) hsd

/-- The judge environment of a reply that decides SUPPLEMENT with
guidance. -/
def envSupp : OrchEnv :=
  ⟨⟨true, .reply ("DECISION: SUPPLEMENT\nGUIDANCE: 补充方向".toList),
    false, .otherError⟩, none⟩

/-- C1 witness: at a SUPPLEMENT-deciding judge with the counter at 1 the
decision is forced to approve and the counter stays 1; with the counter at
0 the decision is supplement and the counter becomes 1. -/
theorem C1_supplement_round_bound_witness :
    (orchestrate_research 1 envSupp).1.decision = approveStr
  ∧ (orchestrate_research 1 envSupp).2 = 1
  ∧ (orchestrate_research 0 envSupp).2 = 0 + 1 :=
  ⟨((C1_supplement_round_bound 1 envSupp []).1 (by omega)).1,
   ((C1_supplement_round_bound 1 envSupp []).1 (by omega)).2.2.1,
   ((C1_supplement_round_bound 0 envSupp []).2.1 (by decide)).2⟩

def failureMark : Str := "失败".toList

/-- Whether some forum entry of the trace records a failure (its content
contains 失败, as every failure message of the source does). -/
def hasFailureForumNote (evs : List BBEvent) : Bool :=
  evs.any (fun ev => match ev with
    | .forumAppend _ c => strContainsSub c failureMark
    | _ => false)

theorem strContainsSub_append_left (a b needle : Str)
    (h : strContainsSub a needle = true) :
    strContainsSub (a ++ b) needle = true := by
  unfold strContainsSub at h ⊢
  rw [List.any_eq_true] at h ⊢
  obtain ⟨t, ht, hp⟩ := h
  refine ⟨t ++ b, ?_, ?_⟩
  · rw [List.tails_append]
    exact List.mem_append.mpr (Or.inl (List.mem_map.mpr ⟨t, ht, rfl⟩))
  · rw [List.isPrefixOf_iff_prefix] at hp ⊢
    exact hp.trans (t.prefix_append b)

theorem planFailMsg_has_mark (e : Str) :
    strContainsSub (planFailMsg e) failureMark = true :=
  strContainsSub_append_left _ _ _
    (strContainsSub_append_left ("Plan 评审失败：".toList) e failureMark (by decide))

theorem researchFailMsg_has_mark (e : Str) :
    strContainsSub (researchFailMsg e) failureMark = true :=
  strContainsSub_append_left _ _ _
    (strContainsSub_append_left ("Research 评审失败：".toList) e failureMark (by decide))

/-- C2 (amended): any Judge error — LLM unavailable, timeout, empty reply,
missing API-key configuration, failed content-policy fallback — is
absorbed inside the LLM wrapper: the decision is approve with empty
guidance and the forum receives the ordinary decision entry, not a
failure entry; an exception that escapes to the orchestrate task (e.g. a
blackboard error) also yields approve with empty guidance and then a forum
entry recording the failure; in all cases the orchestrate tasks perform no
status update at all, so the task status never advances to failed. -/
theorem C2_judge_failure_policy (env : OrchEnv) (round : Nat) :
    (judge_error_env env.judge = true → env.bbError = none →
        orchestrate_plan env =
          ⟨approveStr, [],
            [.forumAppend orchestratorSpk planStartMsg,
             .llmInvoke planStr,
             .forumAppend orchestratorSpk (planReviewMsg approveStr)]⟩
      ∧ (orchestrate_research round env).1.decision = approveStr
      ∧ (orchestrate_research round env).1.guidance = [])
  ∧ (∀ e, env.bbError = some e →
        (orchestrate_plan env).decision = approveStr
      ∧ (orchestrate_plan env).guidance = []
      ∧ hasFailureForumNote (orchestrate_plan env).events = true
      ∧ (orchestrate_research round env).1.decision = approveStr
      ∧ hasFailureForumNote (orchestrate_research round env).1.events = true)
  ∧ (orchestrate_plan env).events.all (fun ev => !(ev.isStatusUpdate)) = true
  ∧ (orchestrate_research round env).1.events.all
      (fun ev => !(ev.isStatusUpdate)) = true := by
  refine ⟨fun hj hbb => ?_, fun e hbb => ?_, ?_, ?_⟩
  · have hc := call_llm_error env.judge hj
    refine ⟨?_, ?_, ?_⟩
    · unfold orchestrate_plan
      rw [hbb, hc]
      rfl
    · unfold orchestrate_research
      rw [hbb]
      by_cases hr : 1 ≤ round
      · rw [if_pos hr]
      · rw [if_neg hr, hc]
        rw [if_neg (by decide : ¬ (approveStr, ([] : Str)).1 = supplementStr)]
    · unfold orchestrate_research
      rw [hbb]
      by_cases hr : 1 ≤ round
      · rw [if_pos hr]
      · rw [if_neg hr, hc]
        rw [if_neg (by decide : ¬ (approveStr, ([] : Str)).1 = supplementStr)]
  · unfold orchestrate_plan orchestrate_research
    rw [hbb]
    refine ⟨rfl, rfl, ?_, rfl, ?_⟩
    · simp [hasFailureForumNote, planFailMsg_has_mark e]
    · simp [hasFailureForumNote, researchFailMsg_has_mark e]
  · unfold orchestrate_plan
    cases env.bbError with
    | some e => rfl
    | none =>
      by_cases hg : (call_llm_for_decision env.judge).2.isEmpty = true
      · rw [if_pos hg]; rfl
      · rw [if_neg hg]; rfl
  · unfold orchestrate_research
    cases env.bbError with
    | some e => rfl
    | none =>
      by_cases hr : 1 ≤ round
      · rw [if_pos hr]; rfl
      · rw [if_neg hr]
        by_cases hsd : (call_llm_for_decision env.judge).1 = supplementStr
        · rw [if_pos hsd]
          by_cases hg : (call_llm_for_decision env.judge).2.isEmpty = true
          · rw [if_pos hg]; rfl
          · rw [if_neg hg]; rfl
        · rw [if_neg hsd]; rfl

/-- A judge environment with no API key configured. -/
def envNoKey : OrchEnv :=
  ⟨⟨false, .reply ("x".toList), true, .otherError⟩, none⟩

/-- C2 counterexample: with the API key missing — one of the claim's Judge
error kinds — the plan review returns approve with empty guidance, but no
forum entry records the failure: the forum only receives the start entry
and the ordinary decision entry. -/
theorem C2_counterexample :
    judge_error_env envNoKey.judge = true
  ∧ (orchestrate_plan envNoKey).decision = approveStr
  ∧ (orchestrate_plan envNoKey).guidance = []
  ∧ hasFailureForumNote (orchestrate_plan envNoKey).events = false
  ∧ (orchestrate_plan envNoKey).events =
      [.forumAppend orchestratorSpk planStartMsg,
       .llmInvoke planStr,
       .forumAppend orchestratorSpk (planReviewMsg approveStr)] := by
  refine ⟨by decide, by decide, by decide, by decide, by decide⟩

/-- An orchestrate environment whose blackboard read raises. -/
def envBBErr : OrchEnv :=
  ⟨⟨true, .reply ("x".toList), true, .otherError⟩, some ("boom".toList)⟩

/-- C2 witness: the wrapped-error case at the missing-key environment and
the escaping-exception case at a blackboard-error environment. -/
theorem C2_judge_failure_policy_witness :
    orchestrate_plan envNoKey =
      ⟨approveStr, [],
        [.forumAppend orchestratorSpk planStartMsg,
         .llmInvoke planStr,
         .forumAppend orchestratorSpk (planReviewMsg approveStr)]⟩
  ∧ hasFailureForumNote (orchestrate_plan envBBErr).events = true :=
  ⟨((C2_judge_failure_policy envNoKey 0).1 (by decide) rfl).1,
   ((C2_judge_failure_policy envBBErr 0).2.1 ("boom".toList) rfl).2.2.1⟩

/-- Position of the first event satisfying a predicate (length of the
trace when none does). -/
def firstIdx (p : BBEvent → Bool) : List BBEvent → Nat
  | [] => 0
  | e :: t => if p e then 0 else firstIdx p t + 1

theorem orchestrate_research_supplement (env : OrchEnv) (g : Str)
    (hbb : env.bbError = none)
    (hc : call_llm_for_decision env.judge = (supplementStr, g))
    (hge : g.isEmpty = false) :
    orchestrate_research 0 env =
      (⟨supplementStr, g,
        [.forumAppend orchestratorSpk researchStartMsg,
         .llmInvoke researchStr,
         .roundIncrement,
         .forumAppend orchestratorSpk (researchSupplMsg 1)] ++
        [.guidanceWrite researchStr g]⟩, 1) := by
  unfold orchestrate_research
  rw [hbb, if_neg (by omega : ¬ (1 : Nat) ≤ 0), hc]
  rw [if_pos (show (supplementStr, g).1 = supplementStr from rfl)]
  rw [if_neg (show ¬ ((supplementStr, g).2.isEmpty = true) by simp [hge])]

/-- C3 (amended): when the Judge returns supplement at the research phase
with the round counter at 0, the engine performs, in this order: the
atomic round-counter increment FIRST, then the guidance persist under
guidance:research (written in the orchestrate task and re-written by the
decision handler), then the supplement status update, then fan-out of the
REGULAR research operation (`execute_research`, the agents re-reading
guidance:research — not `execute_supplemental_research`) to all three
agents with trigger_phase3_report as the chord barrier callback; after the
barrier, trigger_phase3_report proceeds straight to the Report phase and
never re-invokes the Judge. -/
theorem C3_supplement_flow (env : OrchEnv) (g : Str)
    (hbb : env.bbError = none)
    (hc : call_llm_for_decision env.judge = (supplementStr, g))
    (hg : g ≠ []) :
    (research_decision_flow 0 env).1 =
      [.forumAppend orchestratorSpk researchStartMsg,
       .llmInvoke researchStr,
       .roundIncrement,
       .forumAppend orchestratorSpk (researchSupplMsg 1),
       .guidanceWrite researchStr g,
       .forumAppend systemSpk ("需要补充研究，Guidance: ".toList ++ g),
       .guidanceWrite researchStr g,
       .statusUpdate ("phase2_supplement".toList) 70,
       .fanOut ("execute_research".toList) agentsAll,
       .chordCallback ("trigger_phase3_report".toList)]
  ∧ (research_decision_flow 0 env).2 = 1
  ∧ trigger_phase3_report_events.all (fun ev => !(ev.isLlmInvoke)) = true := by
  have hge : g.isEmpty = false := by
    cases g with
    | nil => exact absurd rfl hg
    | cons a t => rfl
  have horch := orchestrate_research_supplement env g hbb hc hge
  refine ⟨?_, ?_, by decide⟩
  · unfold research_decision_flow
    rw [horch]
    simp [handle_research_decision, hge]
  · unfold research_decision_flow
    rw [horch]

/-- The guidance text of the concrete SUPPLEMENT reply. -/
def g0 : Str := "补充方向".toList

/-- C3 counterexample: at a concrete SUPPLEMENT environment the round
increment strictly precedes the first guidance:research write, and the
fan-out runs the execute_research operation — no
execute_supplemental_research fan-out exists in the trace. The claim's
order (guidance persisted before the increment) and its operation
(execute_supplemental_research) both contradict the code. -/
theorem C3_counterexample :
    firstIdx (fun ev => ev == BBEvent.roundIncrement)
        (research_decision_flow 0 envSupp).1 <
      firstIdx (fun ev => match ev with
        | .guidanceWrite ph _ => ph == researchStr
        | _ => false) (research_decision_flow 0 envSupp).1
  ∧ ((research_decision_flow 0 envSupp).1.any (fun ev => match ev with
        | .fanOut op _ => op == ("execute_supplemental_research".toList)
        | _ => false)) = false
  ∧ ((research_decision_flow 0 envSupp).1.any (fun ev => match ev with
        | .fanOut op _ => op == ("execute_research".toList)
        | _ => false)) = true := by
  refine ⟨by decide, by decide, by decide⟩

/-- C3 witness: the amended flow at the concrete SUPPLEMENT environment. -/
theorem C3_supplement_flow_witness :
    (research_decision_flow 0 envSupp).1 =
      [.forumAppend orchestratorSpk researchStartMsg,
       .llmInvoke researchStr,
       .roundIncrement,
       .forumAppend orchestratorSpk (researchSupplMsg 1),
       .guidanceWrite researchStr g0,
       .forumAppend systemSpk ("需要补充研究，Guidance: ".toList ++ g0),
       .guidanceWrite researchStr g0,
       .statusUpdate ("phase2_supplement".toList) 70,
       .fanOut ("execute_research".toList) agentsAll,
       .chordCallback ("trigger_phase3_report".toList)]
  ∧ (research_decision_flow 0 envSupp).2 = 1 :=
  ⟨(C3_supplement_flow envSupp g0 rfl (by decide) (by decide)).1,
   (C3_supplement_flow envSupp g0 rfl (by decide) (by decide)).2.1⟩

end PPU
